import Mathlib

/-!
# Verification of the Monte Carlo trading-strategy simulator

Shallow embedding of `monte_carlo_simulator.py` (class `MonteCarloSimulator`).

Modelling conventions:
* Python floats are modelled as exact rationals (`ℚ`); every claim checked here
  is about the exact arithmetic structure of the program, not about rounding.
* Randomness is abstracted as an explicit stream of draws: each trade `i`
  consumes one `TradeDraw` holding the uniform variate used by
  `_generate_confidence_level`, the uniform variate used for the Bernoulli win
  flag in `_simulate_single_trade`, and the two log-normal magnitude samples
  (of which the branch taken uses exactly one).  The simulator is then a pure
  function of (stats, config, draw stream).
* `float('inf')` (the profit factor of a trajectory with zero gross loss) is
  modelled by `Option ℚ`: `none` stands for the infinite value.
* `np.mean`/`np.median`/`np.min`/`np.max` of an empty list (NaN / error in
  numpy) are modelled by `Option ℚ` results, `none` on the empty list.
* `sharpe_ratio` (mean/std × √365) and the `std` aggregate are omitted from
  the embedding: they involve an irrational square root, and no checked claim
  mentions their values.
-/

/-- Confidence tier of a trade (`'HIGH' | 'MEDIUM' | 'LOW'` strings in the source). -/
inductive Confidence where
  | HIGH : Confidence
  | MEDIUM : Confidence
  | LOW : Confidence
deriving DecidableEq, Repr

/-- The `TradeStats` dataclass: current performance statistics (only the fields the
simulation engine reads are kept; the trade-count bookkeeping fields are inert). -/
structure TradeStats where
  win_rate : ℚ := 543/1000
  avg_win : ℚ := 688/100
  avg_loss : ℚ := 157/100
  high_conf_pct : ℚ := 67/100
  medium_conf_pct : ℚ := 31/100
  low_conf_pct : ℚ := 2/100
deriving DecidableEq, Repr

/-- The `SimulationConfig` dataclass. -/
structure SimulationConfig where
  num_simulations : ℕ := 10000
  num_trades : ℕ := 1000
  initial_capital : ℚ := 1000
  use_compounding : Bool := true
  high_conf_kelly : ℚ := 146/1000
  medium_conf_kelly : ℚ := 110/1000
  low_conf_kelly : ℚ := 55/1000
  max_position_pct : ℚ := 20/100
  max_total_exposure : ℚ := 150/100
  correlation_reduction : ℚ := 30/100
  slippage_pct : ℚ := 5/1000
  commission_pct : ℚ := 1/1000
deriving DecidableEq, Repr

/-- The random draws consumed by one trade: `confRand` is the uniform sample of
`_generate_confidence_level`, `winRand` the uniform sample deciding the win
flag, `winMag`/`lossMag` the log-normal magnitude samples of the win and loss
branches of `_simulate_single_trade` (each branch draws exactly one of them). -/
structure TradeDraw where
  confRand : ℚ
  winRand : ℚ
  winMag : ℚ
  lossMag : ℚ
deriving DecidableEq, Repr

/-- The `SimulationResult` dataclass: results of a single simulated trajectory.
`profit_factor = none` models `float('inf')`; `sharpe_ratio` omitted (see header). -/
structure SimulationResult where
  final_capital : ℚ
  total_pnl : ℚ
  max_drawdown : ℚ
  max_drawdown_pct : ℚ
  longest_win_streak : ℕ
  longest_loss_streak : ℕ
  total_wins : ℕ
  total_losses : ℕ
  actual_win_rate : ℚ
  profit_factor : Option ℚ
  equity_curve : List ℚ
  drawdown_curve : List ℚ
deriving DecidableEq, Repr

/-- The local variables of `_run_single_simulation`'s trade loop, bundled as a
state record.  `equity_rev` and `returns_rev` hold the Python lists in reverse
(most recent entry first); `ruined` records that the `break` on
`capital <= 0` has fired. -/
structure SimState where
  capital : ℚ
  equity_rev : List ℚ
  peak_capital : ℚ
  max_drawdown : ℚ
  wins : ℕ
  losses : ℕ
  current_streak : ℕ
  longest_win_streak : ℕ
  longest_loss_streak : ℕ
  last_trade_won : Option Bool
  gross_profit : ℚ
  gross_loss : ℚ
  returns_rev : List ℚ
  ruined : Bool
deriving DecidableEq, Repr

/-- Embeds `_generate_confidence_level`: map the uniform draw to a tier by the
cumulative historical distribution. -/
def generate_confidence_level (stats : TradeStats) (u : ℚ) : Confidence :=
  if u < stats.high_conf_pct then Confidence.HIGH
  else if u < stats.high_conf_pct + stats.medium_conf_pct then Confidence.MEDIUM
  else Confidence.LOW

/-- Embeds `_get_win_rate_by_confidence`: the hardcoded tier-specific win-rate table. -/
def get_win_rate_by_confidence (confidence : Confidence) : ℚ :=
  match confidence with
  | Confidence.HIGH => 625/1000
  | Confidence.MEDIUM => 500/1000
  | Confidence.LOW => 450/1000

/-- Embeds `_simulate_single_trade`: Bernoulli win flag from the tier win rate, signed
magnitude from the draw, then slippage and (two-sided) commission costs.
Returns `(pnl, is_winner)`. -/
def simulate_single_trade (config : SimulationConfig) (confidence : Confidence)
    (d : TradeDraw) : ℚ × Bool :=
  let win_rate := get_win_rate_by_confidence confidence
  let isWinner : Bool := decide (d.winRand < win_rate)
  let pnl₀ : ℚ := if isWinner then d.winMag else -d.lossMag
  let slippage_cost := abs pnl₀ * config.slippage_pct
  let commission_cost := abs pnl₀ * config.commission_pct * 2
  (pnl₀ - slippage_cost - commission_cost, isWinner)

/-- Embeds `_calculate_position_size`: Kelly-fraction sizing clamped by the maximum
position constraint. -/
def calculate_position_size (config : SimulationConfig) (capital : ℚ)
    (confidence : Confidence) (risk_pct : ℚ) : ℚ :=
  let kelly_fraction :=
    match confidence with
    | Confidence.HIGH => config.high_conf_kelly
    | Confidence.MEDIUM => config.medium_conf_kelly
    | Confidence.LOW => config.low_conf_kelly
  let position_size := capital * kelly_fraction * risk_pct
  let max_position := capital * config.max_position_pct
  min position_size max_position

/-- The confidence tier drawn for a trade (`_generate_confidence_level` applied
to the trade's uniform draw). -/
def trade_confidence (stats : TradeStats) (d : TradeDraw) : Confidence :=
  generate_confidence_level stats d.confRand

/-- The position size used for a trade as a function of the current capital:
the compounding flag selects whether `_calculate_position_size` is applied to
the current or to the initial capital (source lines 203–209). -/
def trade_position_size (stats : TradeStats) (config : SimulationConfig)
    (capital : ℚ) (d : TradeDraw) : ℚ :=
  if config.use_compounding then
    calculate_position_size config capital (trade_confidence stats d) 1
  else
    calculate_position_size config config.initial_capital (trade_confidence stats d) 1

/-- The win flag of a trade (second component of `_simulate_single_trade`). -/
def trade_winner (config : SimulationConfig) (stats : TradeStats) (d : TradeDraw) : Bool :=
  (simulate_single_trade config (trade_confidence stats d) d).2

/-- The capital contribution of a trade (source line 216):
`trade_pnl = pnl_per_unit * (position_size / initial_capital)`. -/
def trade_pnl_at (stats : TradeStats) (config : SimulationConfig)
    (capital : ℚ) (d : TradeDraw) : ℚ :=
  (simulate_single_trade config (trade_confidence stats d) d).1 *
    (trade_position_size stats config capital d / config.initial_capital)

/-- One iteration of the trade loop of `_run_single_simulation` (the loop body
for one `trade_num`, given that the `break` has not fired). -/
def simStep (stats : TradeStats) (config : SimulationConfig) (st : SimState)
    (d : TradeDraw) : SimState :=
  let isWinner := trade_winner config stats d
  let trade_pnl := trade_pnl_at stats config st.capital d
  let capital := st.capital + trade_pnl
  -- win/loss bookkeeping (streaks reset to 1 on an outcome change)
  let st₁ :=
    if isWinner then
      let streak := match st.last_trade_won with
        | some true => st.current_streak + 1
        | _ => 1
      { st with
        wins := st.wins + 1
        gross_profit := st.gross_profit + abs trade_pnl
        current_streak := streak
        longest_win_streak := max st.longest_win_streak streak
        last_trade_won := some true }
    else
      let streak := match st.last_trade_won with
        | some false => st.current_streak + 1
        | _ => 1
      { st with
        losses := st.losses + 1
        gross_loss := st.gross_loss + abs trade_pnl
        current_streak := streak
        longest_loss_streak := max st.longest_loss_streak streak
        last_trade_won := some false }
  -- equity-curve append, peak / drawdown tracking
  let equity_rev := capital :: st.equity_rev
  let peak_capital := if capital > st.peak_capital then capital else st.peak_capital
  let drawdown := peak_capital - capital
  let max_drawdown := max st.max_drawdown drawdown
  -- per-trade return: `(equity_curve[-1] - equity_curve[-2]) / equity_curve[-2]`,
  -- guarded by `len(equity_curve) > 1` (after the append the old list is `[-2]`'s home)
  let returns_rev :=
    if st.equity_rev.length + 1 > 1 then
      ((capital - st.equity_rev.getD 0 0) / st.equity_rev.getD 0 0) :: st.returns_rev
    else st.returns_rev
  let st₂ := { st₁ with
    capital := capital
    equity_rev := equity_rev
    peak_capital := peak_capital
    max_drawdown := max_drawdown
    returns_rev := returns_rev }
  -- ruin check: clamp to 0, append a second 0 entry, and stop
  if capital ≤ 0 then
    { st₂ with capital := 0, equity_rev := 0 :: st₂.equity_rev, ruined := true }
  else
    st₂

/-- The trade loop of `_run_single_simulation`: `fuel` remaining iterations,
`i` the index of the next trade (its slot in the draw stream); the loop body is
skipped once `ruined` (the Python `break`). -/
def runTrades (stats : TradeStats) (config : SimulationConfig)
    (draws : ℕ → TradeDraw) : ℕ → ℕ → SimState → SimState
  | 0, _, st => st
  | Nat.succ n, i, st =>
    if st.ruined then st
    else runTrades stats config draws n (i + 1) (simStep stats config st (draws i))

/-- The initial state of `_run_single_simulation` before the trade loop. -/
def initState (config : SimulationConfig) : SimState :=
  { capital := config.initial_capital
    equity_rev := [config.initial_capital]
    peak_capital := config.initial_capital
    max_drawdown := 0
    wins := 0
    losses := 0
    current_streak := 0
    longest_win_streak := 0
    longest_loss_streak := 0
    last_trade_won := none
    gross_profit := 0
    gross_loss := 0
    returns_rev := []
    ruined := false }

/-- The state of `_run_single_simulation` after the trade loop finishes. -/
def finalState (stats : TradeStats) (config : SimulationConfig)
    (draws : ℕ → TradeDraw) : SimState :=
  runTrades stats config draws config.num_trades 0 (initState config)

/-- Helper for the post-hoc drawdown curve: running peak recomputed from the
start, one percentage entry per equity entry. -/
def ddAux (peak : ℚ) : List ℚ → List ℚ
  | [] => []
  | e :: rest =>
    let peak' := if e > peak then e else peak
    let dd := if peak' > 0 then (peak' - e) / peak' * 100 else 0
    dd :: ddAux peak' rest

/-- The drawdown-percentage curve derived from the equity curve
(`peak = equity_curve[0]` initially, then the loop over all entries). -/
def drawdown_curve_of (eq : List ℚ) : List ℚ :=
  ddAux (eq.getD 0 0) eq

/-- The final-metrics epilogue of `_run_single_simulation`, assembling the
`SimulationResult` from the loop state. -/
def mkResult (config : SimulationConfig) (st : SimState) : SimulationResult :=
  let equity_curve := st.equity_rev.reverse
  { final_capital := st.capital
    total_pnl := st.capital - config.initial_capital
    max_drawdown := st.max_drawdown
    max_drawdown_pct :=
      if st.peak_capital > 0 then st.max_drawdown / st.peak_capital * 100 else 100
    longest_win_streak := st.longest_win_streak
    longest_loss_streak := st.longest_loss_streak
    total_wins := st.wins
    total_losses := st.losses
    actual_win_rate :=
      if st.wins + st.losses > 0 then (st.wins : ℚ) / ((st.wins : ℚ) + (st.losses : ℚ)) else 0
    profit_factor :=
      if st.gross_loss > 0 then some (st.gross_profit / st.gross_loss) else none
    equity_curve := equity_curve
    drawdown_curve := drawdown_curve_of equity_curve }

/-- Embeds `_run_single_simulation` as a function of the draw stream. -/
def run_single_simulation (stats : TradeStats) (config : SimulationConfig)
    (draws : ℕ → TradeDraw) : SimulationResult :=
  mkResult config (finalState stats config draws)

/-! ## Aggregation engine (`analyze_results`)

`np.sort`-based statistics are modelled with `List.insertionSort (· ≤ ·)`:
over a linear order every correct sort computes the same list, and insertion
sort is structurally recursive, hence evaluable inside proofs. -/

/-- The sorted copy of the data that numpy's order statistics work on. -/
def npSort (xs : List ℚ) : List ℚ :=
  List.insertionSort (· ≤ ·) xs

/-- Embeds `np.mean`; `none` models the NaN numpy produces on an empty array. -/
def npMean (xs : List ℚ) : Option ℚ :=
  if xs.length = 0 then none else some (xs.sum / (xs.length : ℚ))

/-- Embeds `np.median`: middle element of the sorted data, or the average of the two
middle elements; `none` models NaN on empty input. -/
def npMedian (xs : List ℚ) : Option ℚ :=
  let s := npSort xs
  let n := s.length
  if n = 0 then none
  else if n % 2 = 1 then some (s.getD (n / 2) 0)
  else some ((s.getD (n / 2 - 1) 0 + s.getD (n / 2) 0) / 2)

/-- Embeds `np.min`; `none` models the error on an empty array. -/
def npMin (xs : List ℚ) : Option ℚ :=
  (npSort xs).getD 0 0 |> fun v => if xs.length = 0 then none else some v

/-- Embeds `np.max`; `none` models the error on an empty array. -/
def npMax (xs : List ℚ) : Option ℚ :=
  (npSort xs).getD (xs.length - 1) 0 |> fun v => if xs.length = 0 then none else some v

/-- Linear interpolation of a sorted data list at fractional rank `pos`
(the kernel of numpy's default percentile method). -/
def interpolate (s : List ℚ) (pos : ℚ) : ℚ :=
  let lo : ℕ := (⌊pos⌋).toNat
  let hi : ℕ := min (lo + 1) (s.length - 1)
  let g : ℚ := pos - (lo : ℚ)
  s.getD lo 0 + g * (s.getD hi 0 - s.getD lo 0)

/-- Embeds `np.percentile` with the default linear-interpolation method:
`pos = p/100 · (n−1)`, interpolate between the adjacent sorted entries.
(numpy raises on an empty array; 0 is returned here and every theorem about
percentiles carries a non-emptiness hypothesis.) -/
def npPercentile (xs : List ℚ) (p : ℚ) : ℚ :=
  let s := npSort xs
  if s.length = 0 then 0
  else interpolate s (p / 100 * ((s.length : ℚ) - 1))

/-- The percentile set of `analyze_results`. -/
def percentileSet : List ℚ := [1, 5, 10, 25, 50, 75, 90, 95, 99]

/-- One metric's block of the analysis dictionary (the `std` entry is omitted:
irrational square root, not mentioned by any checked claim).  The percentile
sub-dictionary over `percentileSet` is modelled as the function
`p ↦ np.percentile(data, p)`. -/
structure MetricStats where
  mean : Option ℚ
  median : Option ℚ
  minV : Option ℚ
  maxV : Option ℚ
  percentiles : ℚ → ℚ

/-- Build one metric block from its data list. -/
def metricStatsOf (data : List ℚ) : MetricStats :=
  { mean := npMean data
    median := npMedian data
    minV := npMin data
    maxV := npMax data
    percentiles := fun p => npPercentile data p }

/-- The `analysis` dictionary returned by `analyze_results` (the `sharpe_ratio`
block and the `std` entries are omitted, see the header; `win_rate` and
`profit_factor` only carry mean/median in the source). -/
structure AggregateAnalysis where
  final_capital : MetricStats
  total_pnl : MetricStats
  max_drawdown_pct : MetricStats
  win_rate_mean : Option ℚ
  win_rate_median : Option ℚ
  profit_factor_mean : Option ℚ
  profit_factor_median : Option ℚ
  longest_loss_streak : MetricStats
  probability_of_profit : Option ℚ
  probability_of_ruin : Option ℚ

/-- Embeds `analyze_results`: extract the metric lists (filtering infinite profit
factors) and build the aggregate statistics.  The two probability scalars are
`none` on an empty result list (Python would raise `ZeroDivisionError`). -/
def analyze_results (config : SimulationConfig) (results : List SimulationResult) :
    AggregateAnalysis :=
  let final_capitals := results.map (fun r => r.final_capital)
  let total_pnls := results.map (fun r => r.total_pnl)
  let max_drawdowns := results.map (fun r => r.max_drawdown_pct)
  let win_rates := results.map (fun r => r.actual_win_rate)
  let profit_factors := results.filterMap (fun r => r.profit_factor)
  let loss_streaks := results.map (fun r => (r.longest_loss_streak : ℚ))
  { final_capital := metricStatsOf final_capitals
    total_pnl := metricStatsOf total_pnls
    max_drawdown_pct := metricStatsOf max_drawdowns
    win_rate_mean := npMean win_rates
    win_rate_median := npMedian win_rates
    profit_factor_mean := npMean profit_factors
    profit_factor_median := npMedian profit_factors
    longest_loss_streak := metricStatsOf loss_streaks
    probability_of_profit :=
      if results.length = 0 then none
      else some (((total_pnls.filter (fun pnl => 0 < pnl)).length : ℚ)
        / (total_pnls.length : ℚ) * 100)
    probability_of_ruin :=
      if results.length = 0 then none
      else some (((final_capitals.filter
          (fun cap => cap < config.initial_capital * (5/10))).length : ℚ)
        / (final_capitals.length : ℚ) * 100) }


/-! ### Projection lemmas for one loop iteration -/

theorem simStep_capital (stats : TradeStats) (config : SimulationConfig)
    (st : SimState) (d : TradeDraw) :
    (simStep stats config st d).capital =
      (if st.capital + trade_pnl_at stats config st.capital d ≤ 0 then 0
       else st.capital + trade_pnl_at stats config st.capital d) := by
  simp only [simStep]
  repeat' split
  all_goals rfl

theorem simStep_ruined (stats : TradeStats) (config : SimulationConfig)
    (st : SimState) (d : TradeDraw) :
    (simStep stats config st d).ruined =
      (if st.capital + trade_pnl_at stats config st.capital d ≤ 0 then true
       else st.ruined) := by
  simp only [simStep]
  repeat' split
  all_goals rfl

theorem simStep_equity_rev (stats : TradeStats) (config : SimulationConfig)
    (st : SimState) (d : TradeDraw) :
    (simStep stats config st d).equity_rev =
      (if st.capital + trade_pnl_at stats config st.capital d ≤ 0 then
        0 :: (st.capital + trade_pnl_at stats config st.capital d) :: st.equity_rev
       else (st.capital + trade_pnl_at stats config st.capital d) :: st.equity_rev) := by
  simp only [simStep]
  repeat' split
  all_goals rfl

theorem simStep_gross_profit (stats : TradeStats) (config : SimulationConfig)
    (st : SimState) (d : TradeDraw) :
    (simStep stats config st d).gross_profit =
      (if trade_winner config stats d then
        st.gross_profit + abs (trade_pnl_at stats config st.capital d)
       else st.gross_profit) := by
  simp only [simStep]
  repeat' split
  all_goals rfl

theorem simStep_gross_loss (stats : TradeStats) (config : SimulationConfig)
    (st : SimState) (d : TradeDraw) :
    (simStep stats config st d).gross_loss =
      (if trade_winner config stats d then st.gross_loss
       else st.gross_loss + abs (trade_pnl_at stats config st.capital d)) := by
  simp only [simStep]
  repeat' split
  all_goals rfl

/-! ### Loop invariants -/

theorem runTrades_ruined (stats : TradeStats) (config : SimulationConfig)
    (draws : ℕ → TradeDraw) (n i : ℕ) (st : SimState) (h : st.ruined = true) :
    runTrades stats config draws n i st = st := by
  cases n with
  | zero => rfl
  | succ m => simp [runTrades, h]

/-- Invariant of a live (not yet ruined) loop state: the equity curve so far is
non-empty and strictly positive, and so is the capital. -/
def AliveInv (st : SimState) : Prop :=
  st.equity_rev ≠ [] ∧ (∀ x ∈ st.equity_rev, 0 < x) ∧ 0 < st.capital

/-- Invariant of a ruined loop state: capital clamped to 0, the reversed curve
is the terminal 0, then the raw post-trade capital, then a positive history. -/
def RuinInv (st : SimState) : Prop :=
  st.capital = 0 ∧ ∃ c rest, st.equity_rev = 0 :: c :: rest ∧ ∀ x ∈ rest, 0 < x

/-- Combined curve invariant, preserved by the trade loop. -/
def CurveInv (st : SimState) : Prop :=
  (st.ruined = false → AliveInv st) ∧ (st.ruined = true → RuinInv st)

theorem simStep_curveInv (stats : TradeStats) (config : SimulationConfig)
    (st : SimState) (d : TradeDraw) (h : st.ruined = false) (ha : AliveInv st) :
    CurveInv (simStep stats config st d) := by
  obtain ⟨hne, hpos, hcap⟩ := ha
  by_cases hc : st.capital + trade_pnl_at stats config st.capital d ≤ 0
  · constructor
    · intro hfalse
      rw [simStep_ruined, if_pos hc] at hfalse
      exact absurd hfalse (by simp)
    · intro _
      refine ⟨by rw [simStep_capital, if_pos hc], ?_⟩
      exact ⟨st.capital + trade_pnl_at stats config st.capital d, st.equity_rev,
        by rw [simStep_equity_rev, if_pos hc], hpos⟩
  · constructor
    · intro _
      refine ⟨?_, ?_, ?_⟩
      · rw [simStep_equity_rev, if_neg hc]; simp
      · rw [simStep_equity_rev, if_neg hc]
        intro x hx
        rcases List.mem_cons.mp hx with hx | hx
        · subst hx; exact lt_of_not_le (fun hle => hc hle)
        · exact hpos x hx
      · rw [simStep_capital, if_neg hc]
        exact lt_of_not_le (fun hle => hc hle)
    · intro htrue
      rw [simStep_ruined, if_neg hc, h] at htrue
      exact absurd htrue (by simp)

theorem runTrades_curveInv (stats : TradeStats) (config : SimulationConfig)
    (draws : ℕ → TradeDraw) :
    ∀ (n i : ℕ) (st : SimState), CurveInv st →
      CurveInv (runTrades stats config draws n i st) := by
  intro n
  induction n with
  | zero => intro i st h; exact h
  | succ m ih =>
    intro i st h
    by_cases hr : st.ruined = true
    · simpa [runTrades, hr] using h
    · have hfalse : st.ruined = false := by simpa using hr
      have hstep := simStep_curveInv stats config st (draws i) hfalse (h.1 hfalse)
      simpa [runTrades, hfalse] using ih (i + 1) _ hstep

theorem initState_aliveInv (config : SimulationConfig)
    (h : 0 < config.initial_capital) : AliveInv (initState config) := by
  refine ⟨by simp [initState], ?_, h⟩
  intro x hx
  simp [initState] at hx
  simpa [hx] using h

theorem finalState_curveInv (stats : TradeStats) (config : SimulationConfig)
    (draws : ℕ → TradeDraw) (h : 0 < config.initial_capital) :
    CurveInv (finalState stats config draws) := by
  refine runTrades_curveInv stats config draws _ _ _ ?_
  exact ⟨fun _ => initState_aliveInv config h, fun hr => by simp [initState] at hr⟩

/-! ### Curve-length bookkeeping -/

theorem simStep_equity_length_le (stats : TradeStats) (config : SimulationConfig)
    (st : SimState) (d : TradeDraw) :
    (simStep stats config st d).equity_rev.length ≤ st.equity_rev.length + 2 := by
  rw [simStep_equity_rev]
  split <;> simp

theorem simStep_equity_length_of_not_ruined (stats : TradeStats)
    (config : SimulationConfig) (st : SimState) (d : TradeDraw)
    (h : (simStep stats config st d).ruined = false) :
    (simStep stats config st d).equity_rev.length = st.equity_rev.length + 1 := by
  rw [simStep_ruined] at h
  rw [simStep_equity_rev]
  by_cases hc : st.capital + trade_pnl_at stats config st.capital d ≤ 0
  · rw [if_pos hc] at h; exact absurd h (by simp)
  · rw [if_neg hc]; simp

theorem runTrades_equity_length (stats : TradeStats) (config : SimulationConfig)
    (draws : ℕ → TradeDraw) :
    ∀ (n i : ℕ) (st : SimState), st.ruined = false →
      (runTrades stats config draws n i st).equity_rev.length ≤
        st.equity_rev.length + n + 1 := by
  intro n
  induction n with
  | zero => intro i st _; simp [runTrades]
  | succ m ih =>
    intro i st h
    rw [runTrades, if_neg (by simp [h])]
    by_cases hr : (simStep stats config st (draws i)).ruined = true
    · rw [runTrades_ruined stats config draws m (i + 1) _ hr]
      calc (simStep stats config st (draws i)).equity_rev.length
          ≤ st.equity_rev.length + 2 := simStep_equity_length_le stats config st (draws i)
        _ ≤ st.equity_rev.length + (m + 1) + 1 := by omega
    · have hfalse : (simStep stats config st (draws i)).ruined = false := by simpa using hr
      calc (runTrades stats config draws m (i + 1)
              (simStep stats config st (draws i))).equity_rev.length
          ≤ (simStep stats config st (draws i)).equity_rev.length + m + 1 :=
            ih (i + 1) _ hfalse
        _ = st.equity_rev.length + 1 + m + 1 := by
            rw [simStep_equity_length_of_not_ruined stats config st (draws i) hfalse]
        _ ≤ st.equity_rev.length + (m + 1) + 1 := by omega

theorem ddAux_length (p : ℚ) (l : List ℚ) : (ddAux p l).length = l.length := by
  induction l generalizing p with
  | nil => rfl
  | cons e rest ih => simp [ddAux, ih]

/-! ### Gross-loss accumulation -/

theorem simStep_gross_loss_le (stats : TradeStats) (config : SimulationConfig)
    (st : SimState) (d : TradeDraw) :
    st.gross_loss ≤ (simStep stats config st d).gross_loss := by
  rw [simStep_gross_loss]
  split
  · exact le_refl _
  · exact le_add_of_nonneg_right (abs_nonneg _)

theorem runTrades_gross_loss_le (stats : TradeStats) (config : SimulationConfig)
    (draws : ℕ → TradeDraw) :
    ∀ (n i : ℕ) (st : SimState),
      st.gross_loss ≤ (runTrades stats config draws n i st).gross_loss := by
  intro n
  induction n with
  | zero => intro i st; exact le_refl _
  | succ m ih =>
    intro i st
    rw [runTrades]
    split
    · exact le_refl _
    · exact le_trans (simStep_gross_loss_le stats config st (draws i)) (ih (i + 1) _)

theorem finalState_gross_loss_nonneg (stats : TradeStats)
    (config : SimulationConfig) (draws : ℕ → TradeDraw) :
    0 ≤ (finalState stats config draws).gross_loss := by
  have h := runTrades_gross_loss_le stats config draws config.num_trades 0 (initState config)
  simpa [initState] using h

/-! ### The divisors of the per-trade return computation

`_run_single_simulation` computes, on every executed iteration,
`ret = (equity_curve[-1] - equity_curve[-2]) / equity_curve[-2]`; after the
append, `equity_curve[-2]` is the head of the previous reversed curve.  (The
guard `len(equity_curve) > 1` always holds there: the curve starts non-empty.)
`trade_divisors` replays the loop and records that divisor for every executed
iteration. -/
def trade_divisors (stats : TradeStats) (config : SimulationConfig)
    (draws : ℕ → TradeDraw) : ℕ → ℕ → SimState → List ℚ
  | 0, _, _ => []
  | Nat.succ n, i, st =>
    if st.ruined then []
    else st.equity_rev.getD 0 0 ::
      trade_divisors stats config draws n (i + 1) (simStep stats config st (draws i))

theorem trade_divisors_ruined (stats : TradeStats) (config : SimulationConfig)
    (draws : ℕ → TradeDraw) (n i : ℕ) (st : SimState) (h : st.ruined = true) :
    trade_divisors stats config draws n i st = [] := by
  cases n with
  | zero => rfl
  | succ m => simp [trade_divisors, h]

theorem getD_zero_mem {l : List ℚ} (h : l ≠ []) : l.getD 0 0 ∈ l := by
  cases l with
  | nil => exact absurd rfl h
  | cons a t => simp

theorem trade_divisors_pos (stats : TradeStats) (config : SimulationConfig)
    (draws : ℕ → TradeDraw) :
    ∀ (n i : ℕ) (st : SimState), st.ruined = false → AliveInv st →
      ∀ dv ∈ trade_divisors stats config draws n i st, 0 < dv := by
  intro n
  induction n with
  | zero => intro i st _ _ dv hdv; simp [trade_divisors] at hdv
  | succ m ih =>
    intro i st h ha dv hdv
    rw [trade_divisors, if_neg (by simp [h])] at hdv
    rcases List.mem_cons.mp hdv with hdv | hdv
    · subst hdv
      exact ha.2.1 _ (getD_zero_mem ha.1)
    · by_cases hr : (simStep stats config st (draws i)).ruined = true
      · rw [trade_divisors_ruined stats config draws m (i + 1) _ hr] at hdv
        simp at hdv
      · have hfalse : (simStep stats config st (draws i)).ruined = false := by simpa using hr
        exact ih (i + 1) _ hfalse
          ((simStep_curveInv stats config st (draws i) h ha).1 hfalse) dv hdv

/-! ### Monotonicity of the percentile function -/

theorem sorted_getD_mono (s : List ℚ) (hs : List.Sorted (· ≤ ·) s) {i j : ℕ}
    (hij : i ≤ j) (hj : j < s.length) : s.getD i 0 ≤ s.getD j 0 := by
  have hi : i < s.length := lt_of_le_of_lt hij hj
  rw [List.getD_eq_getElem s 0 hi, List.getD_eq_getElem s 0 hj]
  have h := hs.rel_get_of_le (a := ⟨i, hi⟩) (b := ⟨j, hj⟩) (Fin.mk_le_mk.mpr hij)
  simpa using h

theorem interpolate_mono (s : List ℚ) (hs : List.Sorted (· ≤ ·) s) (hne : s ≠ [])
    {a b : ℚ} (ha : 0 ≤ a) (hab : a ≤ b) (hb : b ≤ (s.length : ℚ) - 1) :
    interpolate s a ≤ interpolate s b := by
  have hn : 1 ≤ s.length := List.length_pos.mpr hne
  have hb0 : 0 ≤ b := le_trans ha hab
  have hfa0 : 0 ≤ ⌊a⌋ := Int.floor_nonneg.mpr ha
  have hfb0 : 0 ≤ ⌊b⌋ := Int.floor_nonneg.mpr hb0
  simp only [interpolate]
  set la := (⌊a⌋).toNat with hla_def
  set lb := (⌊b⌋).toNat with hlb_def
  have hQa : (la : ℚ) = ((⌊a⌋ : ℤ) : ℚ) := by
    rw [hla_def]
    exact_mod_cast congrArg (fun z : ℤ => (z : ℚ)) (Int.toNat_of_nonneg hfa0)
  have hQb : (lb : ℚ) = ((⌊b⌋ : ℤ) : ℚ) := by
    rw [hlb_def]
    exact_mod_cast congrArg (fun z : ℤ => (z : ℚ)) (Int.toNat_of_nonneg hfb0)
  have hla_le : (la : ℚ) ≤ a := by rw [hQa]; exact Int.floor_le a
  have hlb_le : (lb : ℚ) ≤ b := by rw [hQb]; exact Int.floor_le b
  have hla_lt1 : a < (la : ℚ) + 1 := by rw [hQa]; exact_mod_cast Int.lt_floor_add_one a
  have h5 : la ≤ lb := by
    rw [hla_def, hlb_def]; exact Int.toNat_le_toNat (Int.floor_mono hab)
  have hcast : ((s.length - 1 : ℕ) : ℚ) = (s.length : ℚ) - 1 := by
    push_cast [Nat.cast_sub hn]; ring
  have h6 : lb ≤ s.length - 1 := by
    rw [hlb_def, Int.toNat_le]
    have hfl : ⌊b⌋ ≤ ⌊((s.length - 1 : ℕ) : ℚ)⌋ := Int.floor_mono (by rw [hcast]; exact hb)
    simpa using hfl
  have hAH : s.getD la 0 ≤ s.getD (min (la + 1) (s.length - 1)) 0 :=
    sorted_getD_mono s hs (by omega) (by omega)
  have hBH : s.getD lb 0 ≤ s.getD (min (lb + 1) (s.length - 1)) 0 :=
    sorted_getD_mono s hs (by omega) (by omega)
  rcases Nat.eq_or_lt_of_le h5 with heq | hlt
  · rw [← heq]
    have h1 : a - (la : ℚ) ≤ b - (la : ℚ) := by linarith
    have h2 : 0 ≤ s.getD (min (la + 1) (s.length - 1)) 0 - s.getD la 0 := by linarith
    have h3 := mul_le_mul_of_nonneg_right h1 h2
    linarith
  · have hstep2 : s.getD (min (la + 1) (s.length - 1)) 0 ≤ s.getD lb 0 :=
      sorted_getD_mono s hs (by omega) (by omega)
    have hga1 : a - (la : ℚ) ≤ 1 := by linarith
    have hgb0 : 0 ≤ b - (lb : ℚ) := by linarith
    have hAHd : 0 ≤ s.getD (min (la + 1) (s.length - 1)) 0 - s.getD la 0 := by linarith
    have hBHd : 0 ≤ s.getD (min (lb + 1) (s.length - 1)) 0 - s.getD lb 0 := by linarith
    have e1 := mul_le_mul_of_nonneg_right hga1 hAHd
    have e3 := mul_nonneg hgb0 hBHd
    linarith

theorem npPercentile_mono (xs : List ℚ) (hne : xs ≠ []) {p q : ℚ}
    (hp : 0 ≤ p) (hpq : p ≤ q) (hq : q ≤ 100) :
    npPercentile xs p ≤ npPercentile xs q := by
  have hlen : (npSort xs).length = xs.length := List.length_insertionSort _ xs
  have hne0 : (npSort xs).length ≠ 0 := by
    rw [hlen]; exact fun h => hne (List.length_eq_zero.mp h)
  have hsne : npSort xs ≠ [] := fun h => hne0 (by rw [h]; rfl)
  have hs : List.Sorted (· ≤ ·) (npSort xs) := List.sorted_insertionSort _ xs
  have hN : (1 : ℚ) ≤ ((npSort xs).length : ℚ) := by
    exact_mod_cast Nat.one_le_iff_ne_zero.mpr hne0
  simp only [npPercentile, if_neg hne0]
  apply interpolate_mono _ hs hsne
  · exact mul_nonneg (by positivity) (by linarith)
  · exact mul_le_mul_of_nonneg_right (by linarith) (by linarith)
  · have h1 : q / 100 ≤ 1 := by linarith
    have h2 := mul_le_mul_of_nonneg_right h1
      (by linarith : (0:ℚ) ≤ ((npSort xs).length : ℚ) - 1)
    linarith

/-! ## Concrete inputs used by witnesses and counterexamples -/

/-- Default trade statistics (the dataclass defaults). -/
def statsD : TradeStats := {}

/-- A no-cost configuration with `kelly = 0.1` on HIGH and one trade. -/
def cfgT1 : SimulationConfig :=
  { num_trades := 1, high_conf_kelly := 1/10, slippage_pct := 0, commission_pct := 0 }

/-- Same configuration with two trades. -/
def cfgT2 : SimulationConfig :=
  { num_trades := 2, high_conf_kelly := 1/10, slippage_pct := 0, commission_pct := 0 }

/-- Same configuration with five trades. -/
def cfgT5 : SimulationConfig :=
  { num_trades := 5, high_conf_kelly := 1/10, slippage_pct := 0, commission_pct := 0 }

/-- A winning draw (HIGH tier, win, magnitude 10). -/
def drawWin10 : TradeDraw := ⟨0, 0, 10, 10⟩

/-- A losing draw of magnitude 10000: with position size 100 and capital 1000
its trade PnL is exactly −1000, which zeroes the capital. -/
def drawLose10000 : TradeDraw := ⟨0, 1, 10, 10000⟩

/-- A losing draw of magnitude 20000: trade PnL −2000, which sends the capital
to −1000 before the ruin clamp. -/
def drawLose20000 : TradeDraw := ⟨0, 1, 10, 20000⟩

/-! ## C3 — curve lengths -/

/-- C3, counterexample: with `num_trades = 1` and a first trade that ruins the
trajectory, the equity curve has length 3 = N + 2 — the claimed bound
`length ≤ N + 1 = 2` fails (the ruin clamp appends an extra 0 after the
post-trade capital was already appended). -/
theorem C3_counterexample :
    (run_single_simulation statsD cfgT1 (fun _ => drawLose10000)).equity_curve.length = 3 ∧
    cfgT1.num_trades = 1 := by
  constructor
  · norm_num [run_single_simulation, finalState, runTrades, simStep, initState, mkResult,
      trade_pnl_at, trade_position_size, trade_confidence, trade_winner,
      simulate_single_trade, calculate_position_size, generate_confidence_level,
      get_win_rate_by_confidence, statsD, cfgT1, drawLose10000]
  · rfl

/-- C3, amended: for every configuration and draw stream, the equity curve of a
trajectory has length ≤ N + 2 (≤ N + 1 when the trajectory is not ruined; a
ruined trajectory carries one extra clamped 0 entry), and the drawdown
percentage curve always has the same length as the equity curve. -/
theorem C3_curve_lengths (stats : TradeStats) (config : SimulationConfig)
    (draws : ℕ → TradeDraw) :
    (run_single_simulation stats config draws).equity_curve.length ≤
      config.num_trades + 2 ∧
    (run_single_simulation stats config draws).drawdown_curve.length =
      (run_single_simulation stats config draws).equity_curve.length := by
  constructor
  · have h := runTrades_equity_length stats config draws config.num_trades 0
      (initState config) (by rfl)
    have hlen : (initState config).equity_rev.length = 1 := by simp [initState]
    rw [hlen] at h
    simpa [run_single_simulation, mkResult, finalState] using (by omega :
      (runTrades stats config draws config.num_trades 0 (initState config)).equity_rev.length ≤
        config.num_trades + 2)
  · simp [run_single_simulation, mkResult, drawdown_curve_of, ddAux_length]

/-! ## C1 — first trade ruins the trajectory -/

/-- C1, counterexample: initial capital 1000, first trade PnL −1000 (capital
hits exactly 0).  The claim asserts `equity_curve == [C₀, 0]`; the code first
appends the post-trade capital 0 and then the ruin clamp appends a second 0,
producing `[1000, 0, 0]`. -/
theorem C1_counterexample :
    (run_single_simulation statsD cfgT2 (fun _ => drawLose10000)).equity_curve =
      [1000, 0, 0] ∧
    (run_single_simulation statsD cfgT2 (fun _ => drawLose10000)).equity_curve ≠
      [1000, 0] := by
  have h : (run_single_simulation statsD cfgT2 (fun _ => drawLose10000)).equity_curve =
      [1000, 0, 0] := by
    norm_num [run_single_simulation, finalState, runTrades, simStep, initState, mkResult,
      trade_pnl_at, trade_position_size, trade_confidence, trade_winner,
      simulate_single_trade, calculate_position_size, generate_confidence_level,
      get_win_rate_by_confidence, statsD, cfgT2, drawLose10000]
  exact ⟨h, by rw [h]; simp⟩

/-- C1, amended: if the first trade brings the capital to exactly 0, the
trajectory terminates immediately with `final_capital = 0` and equity curve
`[C₀, 0, 0]` (post-trade 0 plus the ruin-clamp 0), regardless of the
configured trade count N ≥ 1. -/
theorem C1_first_trade_ruin (stats : TradeStats) (config : SimulationConfig)
    (draws : ℕ → TradeDraw) (hN : 1 ≤ config.num_trades)
    (hz : config.initial_capital +
      trade_pnl_at stats config config.initial_capital (draws 0) = 0) :
    (run_single_simulation stats config draws).final_capital = 0 ∧
    (run_single_simulation stats config draws).equity_curve =
      [config.initial_capital, 0, 0] := by
  obtain ⟨m, hm⟩ : ∃ m, config.num_trades = m + 1 := ⟨config.num_trades - 1, by omega⟩
  have hc : (initState config).capital +
      trade_pnl_at stats config (initState config).capital (draws 0) ≤ 0 :=
    le_of_eq hz
  have hr : (simStep stats config (initState config) (draws 0)).ruined = true := by
    rw [simStep_ruined, if_pos hc]
  have hfs : finalState stats config draws =
      simStep stats config (initState config) (draws 0) := by
    rw [finalState, hm, runTrades, if_neg (by simp [initState])]
    exact runTrades_ruined stats config draws m 1 _ hr
  have hcap : (simStep stats config (initState config) (draws 0)).capital = 0 := by
    rw [simStep_capital, if_pos hc]
  have heq : (simStep stats config (initState config) (draws 0)).equity_rev =
      [0, 0, config.initial_capital] := by
    rw [simStep_equity_rev, if_pos hc]
    simp [initState, hz]
  constructor
  · simp [run_single_simulation, mkResult, hfs, hcap]
  · simp [run_single_simulation, mkResult, hfs, heq]

/-- C1, witness: the amended theorem applied to a concrete five-trade
configuration whose first draw zeroes the capital. -/
theorem C1_first_trade_ruin_witness :
    (run_single_simulation statsD cfgT5 (fun _ => drawLose10000)).final_capital = 0 ∧
    (run_single_simulation statsD cfgT5 (fun _ => drawLose10000)).equity_curve =
      [cfgT5.initial_capital, 0, 0] :=
  C1_first_trade_ruin statsD cfgT5 (fun _ => drawLose10000) (by norm_num [cfgT5])
    (by norm_num [trade_pnl_at, trade_position_size, trade_confidence, trade_winner,
      simulate_single_trade, calculate_position_size, generate_confidence_level,
      get_win_rate_by_confidence, statsD, cfgT5, drawLose10000])

/-! ## C2 — equity-curve sign invariant -/

/-- C2, counterexample, two runs: (a) a losing trade of PnL −2000 from capital
1000 produces the equity curve `[1000, −1000, 0]`, whose second entry is
negative — refuting "every entry is ≥ 0"; (b) a trade landing on exactly 0
produces `[1000, 0, 0]`: the entry 0 at index 1 is followed by one more
appended entry — refuting "after a 0 entry nothing is appended". -/
theorem C2_counterexample :
    ((run_single_simulation statsD cfgT1 (fun _ => drawLose20000)).equity_curve =
        [1000, -1000, 0] ∧
     (run_single_simulation statsD cfgT1 (fun _ => drawLose20000)).equity_curve.getD 1 0 < 0) ∧
    ((run_single_simulation statsD cfgT2 (fun _ => drawLose10000)).equity_curve.getD 1 0 = 0 ∧
     1 + 1 < (run_single_simulation statsD cfgT2 (fun _ => drawLose10000)).equity_curve.length) := by
  constructor
  · have h : (run_single_simulation statsD cfgT1 (fun _ => drawLose20000)).equity_curve =
        [1000, -1000, 0] := by
      norm_num [run_single_simulation, finalState, runTrades, simStep, initState, mkResult,
        trade_pnl_at, trade_position_size, trade_confidence, trade_winner,
        simulate_single_trade, calculate_position_size, generate_confidence_level,
        get_win_rate_by_confidence, statsD, cfgT1, drawLose20000]
    exact ⟨h, by rw [h]; norm_num⟩
  · constructor <;>
      norm_num [run_single_simulation, finalState, runTrades, simStep, initState, mkResult,
        trade_pnl_at, trade_position_size, trade_confidence, trade_winner,
        simulate_single_trade, calculate_position_size, generate_confidence_level,
        get_win_rate_by_confidence, statsD, cfgT2, drawLose10000]

/-- C2, amended: for every configuration with C₀ > 0, every equity-curve entry
other than the last two is strictly positive, the final capital is ≥ 0, and
the final curve entry is ≥ 0 (on ruin the curve ends with the raw post-trade
capital — possibly negative — followed by the terminal clamped 0, after which
nothing more is appended). -/
theorem C2_equity_entries (stats : TradeStats) (config : SimulationConfig)
    (draws : ℕ → TradeDraw) (h : 0 < config.initial_capital) :
    (∀ i, i + 2 < (run_single_simulation stats config draws).equity_curve.length →
      0 < (run_single_simulation stats config draws).equity_curve.getD i 0) ∧
    0 ≤ (run_single_simulation stats config draws).final_capital ∧
    (∀ x, (run_single_simulation stats config draws).equity_curve.getLast? = some x →
      0 ≤ x) := by
  have hCI := finalState_curveInv stats config draws h
  have hcurve : (run_single_simulation stats config draws).equity_curve =
      (finalState stats config draws).equity_rev.reverse := rfl
  have hfc : (run_single_simulation stats config draws).final_capital =
      (finalState stats config draws).capital := rfl
  cases hru : (finalState stats config draws).ruined with
  | false =>
    obtain ⟨hne, hpos, hcap⟩ := hCI.1 hru
    refine ⟨?_, ?_, ?_⟩
    · intro i hi
      rw [hcurve] at hi ⊢
      have hi' : i < (finalState stats config draws).equity_rev.reverse.length := by omega
      rw [List.getD_eq_getElem _ 0 hi']
      exact hpos _ (List.mem_reverse.mp (List.getElem_mem hi'))
    · rw [hfc]; exact le_of_lt hcap
    · intro x hx
      rw [hcurve, List.getLast?_reverse] at hx
      cases he : (finalState stats config draws).equity_rev with
      | nil => rw [he] at hx; simp at hx
      | cons a t =>
        rw [he] at hx
        simp only [List.head?_cons, Option.some_inj] at hx
        subst hx
        exact le_of_lt (hpos a (by rw [he]; exact List.mem_cons_self a t))
  | true =>
    obtain ⟨hc0, c, rest, hshape, hrestpos⟩ := hCI.2 hru
    refine ⟨?_, ?_, ?_⟩
    · intro i hi
      rw [hcurve, hshape] at hi ⊢
      have hlen : (0 :: c :: rest : List ℚ).reverse.length = rest.length + 2 := by simp
      have hir : i < rest.length := by rw [hlen] at hi; omega
      have hrw : (0 :: c :: rest : List ℚ).reverse = (rest.reverse ++ [c]) ++ [0] := by simp
      rw [hrw, List.getD_append _ _ 0 i (by simp; omega),
        List.getD_append _ _ 0 i (by simp [hir])]
      have hir' : i < rest.reverse.length := by simp [hir]
      rw [List.getD_eq_getElem _ 0 hir']
      exact hrestpos _ (List.mem_reverse.mp (List.getElem_mem hir'))
    · rw [hfc, hc0]
    · intro x hx
      rw [hcurve, List.getLast?_reverse, hshape] at hx
      simp only [List.head?_cons, Option.some_inj] at hx
      subst hx
      exact le_refl 0

/-- C2, witness: the amended theorem applied to a two-trade all-win run. -/
theorem C2_equity_entries_witness :
    0 < (run_single_simulation statsD cfgT2 (fun _ => drawWin10)).equity_curve.getD 0 0 ∧
    0 ≤ (run_single_simulation statsD cfgT2 (fun _ => drawWin10)).final_capital :=
  ⟨(C2_equity_entries statsD cfgT2 (fun _ => drawWin10) (by norm_num [cfgT2])).1 0
      (by norm_num [run_single_simulation, finalState, runTrades, simStep, initState, mkResult,
        trade_pnl_at, trade_position_size, trade_confidence, trade_winner,
        simulate_single_trade, calculate_position_size, generate_confidence_level,
        get_win_rate_by_confidence, statsD, cfgT2, drawWin10]),
   (C2_equity_entries statsD cfgT2 (fun _ => drawWin10) (by norm_num [cfgT2])).2.1⟩

/-! ## C10 — per-trade return divisors are positive -/

/-- C10, confirmed: under C₀ > 0, every divisor used by the per-trade return
computation `ret = (equity_curve[-1] - equity_curve[-2]) / equity_curve[-2]`
(collected, iteration by iteration, by `trade_divisors`) is strictly positive:
it is either C₀ or a post-trade capital that passed the `capital > 0`
continuation check. -/
theorem C10_return_divisors_pos (stats : TradeStats) (config : SimulationConfig)
    (draws : ℕ → TradeDraw) (h : 0 < config.initial_capital) :
    ∀ dv ∈ trade_divisors stats config draws config.num_trades 0 (initState config),
      0 < dv :=
  trade_divisors_pos stats config draws config.num_trades 0 (initState config) rfl
    (initState_aliveInv config h)

/-- C10, witness: first divisor of a concrete two-trade run. -/
theorem C10_return_divisors_pos_witness :
    0 < (trade_divisors statsD cfgT2 (fun _ => drawWin10) cfgT2.num_trades 0
      (initState cfgT2)).getD 0 0 :=
  C10_return_divisors_pos statsD cfgT2 (fun _ => drawWin10) (by norm_num [cfgT2]) _
    (by norm_num [trade_divisors, simStep, initState, trade_pnl_at, trade_position_size,
      trade_confidence, trade_winner, simulate_single_trade, calculate_position_size,
      generate_confidence_level, get_win_rate_by_confidence, statsD, cfgT2, drawWin10])

/-! ## C4 — position sizing and the capital update -/

/-- Spec-side formula: the per-tier Kelly fraction table (§4.3 of the spec). -/
def spec_kelly_fraction (config : SimulationConfig) : Confidence → ℚ
  | Confidence.HIGH => config.high_conf_kelly
  | Confidence.MEDIUM => config.medium_conf_kelly
  | Confidence.LOW => config.low_conf_kelly

/-- Spec-side formula: `min(base × kelly_fraction[tier] × risk_multiplier,
base × max_position_pct)`. -/
def spec_position_size (config : SimulationConfig) (base : ℚ) (confidence : Confidence)
    (risk_multiplier : ℚ) : ℚ :=
  min (base * spec_kelly_fraction config confidence * risk_multiplier)
    (base * config.max_position_pct)

theorem calculate_position_size_eq_spec (config : SimulationConfig) (capital : ℚ)
    (confidence : Confidence) (risk_pct : ℚ) :
    calculate_position_size config capital confidence risk_pct =
      spec_position_size config capital confidence risk_pct := by
  cases confidence <;> rfl

/-- C4, confirmed: (i) the position size is
`min(base × kelly[tier] × risk, base × max_position_pct)`; (ii) whenever the
ruin clamp does not fire, one trade updates the capital by exactly
`per-unit PnL × (position_size / C₀)` with the base capital selected by the
compounding flag; (iii) Scenario A concretely: forced win of magnitude 10,
C₀ = 1000, kelly 0.1, no costs gives final capital
`1000 + 10 × (position_size / 1000)`. -/
theorem C4_position_sizing :
    (∀ (config : SimulationConfig) (capital : ℚ) (confidence : Confidence) (risk : ℚ),
      calculate_position_size config capital confidence risk =
        spec_position_size config capital confidence risk) ∧
    (∀ (stats : TradeStats) (config : SimulationConfig) (st : SimState) (d : TradeDraw),
      ¬(st.capital + trade_pnl_at stats config st.capital d ≤ 0) →
      (simStep stats config st d).capital =
        st.capital + (simulate_single_trade config (trade_confidence stats d) d).1 *
          (spec_position_size config
            (if config.use_compounding then st.capital else config.initial_capital)
            (trade_confidence stats d) 1 / config.initial_capital)) ∧
    (run_single_simulation statsD cfgT1 (fun _ => drawWin10)).final_capital =
      1000 + 10 * (min (1000 * (1/10)) (1000 * cfgT1.max_position_pct) / 1000) := by
  refine ⟨calculate_position_size_eq_spec, ?_, ?_⟩
  · intro stats config st d h
    rw [simStep_capital, if_neg h, trade_pnl_at, trade_position_size]
    by_cases hcomp : config.use_compounding <;>
      simp [hcomp, calculate_position_size_eq_spec]
  · norm_num [run_single_simulation, finalState, runTrades, simStep, initState, mkResult,
      trade_pnl_at, trade_position_size, trade_confidence, trade_winner,
      simulate_single_trade, calculate_position_size, generate_confidence_level,
      get_win_rate_by_confidence, statsD, cfgT1, drawWin10]

/-- C4, witness: part (ii) of the theorem applied to a concrete state. -/
theorem C4_position_sizing_witness :
    (simStep statsD cfgT1 (initState cfgT1) drawWin10).capital =
      (initState cfgT1).capital +
        (simulate_single_trade cfgT1 (trade_confidence statsD drawWin10) drawWin10).1 *
          (spec_position_size cfgT1
            (if cfgT1.use_compounding then (initState cfgT1).capital
             else cfgT1.initial_capital)
            (trade_confidence statsD drawWin10) 1 / cfgT1.initial_capital) :=
  C4_position_sizing.2.1 statsD cfgT1 (initState cfgT1) drawWin10
    (by norm_num [trade_pnl_at, trade_position_size, trade_confidence, trade_winner,
      simulate_single_trade, calculate_position_size, generate_confidence_level,
      get_win_rate_by_confidence, statsD, cfgT1, drawWin10, initState])

/-! ## C7 — gross profit/loss classification -/

/-- A one-trade configuration with a 200% slippage rate: a winning trade's
post-cost PnL is negative. -/
def cfgSlip2 : SimulationConfig :=
  { num_trades := 1, high_conf_kelly := 1/10, slippage_pct := 2, commission_pct := 0 }

/-- C7, counterexample: with 200% slippage, the single trade is a sampled win
whose post-cost PnL is −1 (capital drops from 1000 to 999), yet the code adds
`|−1| = 1` to `gross_profit` and nothing to `gross_loss` — the claimed
sign-of-PnL classification would demand `gross_profit = 0`, `gross_loss = 1`.
The accumulation is keyed on the win flag (`wins = 1`), not on the PnL sign. -/
theorem C7_counterexample :
    (finalState statsD cfgSlip2 (fun _ => drawWin10)).gross_profit = 1 ∧
    (finalState statsD cfgSlip2 (fun _ => drawWin10)).gross_loss = 0 ∧
    (finalState statsD cfgSlip2 (fun _ => drawWin10)).capital = 999 ∧
    (finalState statsD cfgSlip2 (fun _ => drawWin10)).wins = 1 := by
  norm_num [finalState, runTrades, simStep, initState,
    trade_pnl_at, trade_position_size, trade_confidence, trade_winner,
    simulate_single_trade, calculate_position_size, generate_confidence_level,
    get_win_rate_by_confidence, statsD, cfgSlip2, drawWin10]

/-- C7, amended: for every trade, `gross_profit` accumulates `|trade PnL|` of
the trades whose sampled win flag is true and `gross_loss` accumulates
`|trade PnL|` of the trades whose win flag is false — classification is by the
Bernoulli win flag, which coincides with the sign of the post-cost PnL only
when `slippage + 2·commission ≤ 1`. -/
theorem C7_gross_classification (stats : TradeStats) (config : SimulationConfig)
    (st : SimState) (d : TradeDraw) :
    (simStep stats config st d).gross_profit =
      (if trade_winner config stats d then
        st.gross_profit + abs (trade_pnl_at stats config st.capital d)
       else st.gross_profit) ∧
    (simStep stats config st d).gross_loss =
      (if trade_winner config stats d then st.gross_loss
       else st.gross_loss + abs (trade_pnl_at stats config st.capital d)) :=
  ⟨simStep_gross_profit stats config st d, simStep_gross_loss stats config st d⟩

/-! ## C6 — profit factor and its aggregation -/

/-- C6, confirmed: per trajectory, the profit factor is `gross_profit /
gross_loss` when the gross loss is positive and infinite (`none`) exactly when
the gross loss is 0; the aggregate mean/median are taken over the finite
profit factors only; and when every trajectory's profit factor is infinite the
filtered set is empty and the aggregation still yields the defined value
`none` (numpy's NaN) without raising. -/
theorem C6_profit_factor :
    (∀ (stats : TradeStats) (config : SimulationConfig) (draws : ℕ → TradeDraw),
      (0 < (finalState stats config draws).gross_loss →
        (run_single_simulation stats config draws).profit_factor =
          some ((finalState stats config draws).gross_profit /
            (finalState stats config draws).gross_loss)) ∧
      ((run_single_simulation stats config draws).profit_factor = none ↔
        (finalState stats config draws).gross_loss = 0)) ∧
    (∀ (config : SimulationConfig) (results : List SimulationResult),
      (analyze_results config results).profit_factor_mean =
        npMean (results.filterMap (fun r => r.profit_factor)) ∧
      (analyze_results config results).profit_factor_median =
        npMedian (results.filterMap (fun r => r.profit_factor))) ∧
    (∀ (config : SimulationConfig) (results : List SimulationResult),
      (∀ r ∈ results, r.profit_factor = none) →
      (analyze_results config results).profit_factor_mean = none ∧
      (analyze_results config results).profit_factor_median = none) := by
  refine ⟨?_, ?_, ?_⟩
  · intro stats config draws
    have hnn := finalState_gross_loss_nonneg stats config draws
    constructor
    · intro hgl
      simp [run_single_simulation, mkResult, hgl]
    · constructor
      · intro hnone
        by_contra hne
        have hgl : 0 < (finalState stats config draws).gross_loss :=
          lt_of_le_of_ne hnn (fun h => hne h.symm)
        simp [run_single_simulation, mkResult, hgl] at hnone
      · intro h0
        simp [run_single_simulation, mkResult, h0]
  · intro config results
    exact ⟨rfl, rfl⟩
  · intro config results h
    have hempty : results.filterMap (fun r => r.profit_factor) = [] :=
      List.filterMap_eq_nil_iff.mpr h
    constructor
    · show npMean (results.filterMap (fun r => r.profit_factor)) = none
      rw [hempty]; rfl
    · show npMedian (results.filterMap (fun r => r.profit_factor)) = none
      rw [hempty]; rfl

/-- A handcrafted result record whose profit factor is infinite. -/
def resPFnone : SimulationResult :=
  ⟨1100, 100, 0, 0, 1, 0, 1, 0, 1, none, [1000, 1100], [0, 0]⟩

/-- C6, witness: part (a) on a run with positive gross loss, and part (d) on a
result set whose only profit factor is infinite. -/
theorem C6_profit_factor_witness :
    (run_single_simulation statsD cfgT1 (fun _ => drawLose20000)).profit_factor =
      some ((finalState statsD cfgT1 (fun _ => drawLose20000)).gross_profit /
        (finalState statsD cfgT1 (fun _ => drawLose20000)).gross_loss) ∧
    (analyze_results cfgT1 [resPFnone]).profit_factor_mean = none ∧
    (analyze_results cfgT1 [resPFnone]).profit_factor_median = none :=
  ⟨(C6_profit_factor.1 statsD cfgT1 (fun _ => drawLose20000)).1
      (by norm_num [finalState, runTrades, simStep, initState,
        trade_pnl_at, trade_position_size, trade_confidence, trade_winner,
        simulate_single_trade, calculate_position_size, generate_confidence_level,
        get_win_rate_by_confidence, statsD, cfgT1, drawLose20000]),
   C6_profit_factor.2.2 cfgT1 [resPFnone]
      (by intro r hr; simp only [List.mem_singleton] at hr; rw [hr]; rfl)⟩

/-! ## C5 — probability of profit and of ruin -/

/-- C5, confirmed: on a non-empty result set, `probability_of_profit` is the
percentage of trajectories with strictly positive total PnL and
`probability_of_ruin` is the percentage of trajectories whose final capital is
below half the initial capital; when every trajectory has positive PnL (and
final capital = C₀ + PnL, as the simulator guarantees), the engine reports
100.0 and 0.0. -/
theorem C5_probabilities (config : SimulationConfig)
    (results : List SimulationResult) (hne : results ≠ []) :
    ((analyze_results config results).probability_of_profit =
        some (((results.filter (fun r => 0 < r.total_pnl)).length : ℚ) /
          (results.length : ℚ) * 100) ∧
     (analyze_results config results).probability_of_ruin =
        some (((results.filter (fun r =>
            r.final_capital < config.initial_capital * (5/10))).length : ℚ) /
          (results.length : ℚ) * 100)) ∧
    (0 < config.initial_capital →
      (∀ r ∈ results, 0 < r.total_pnl ∧
        r.final_capital = config.initial_capital + r.total_pnl) →
      (analyze_results config results).probability_of_profit = some 100 ∧
      (analyze_results config results).probability_of_ruin = some 0) := by
  have hlen0 : results.length ≠ 0 := fun h => hne (List.length_eq_zero.mp h)
  have hprofit : (analyze_results config results).probability_of_profit =
      some (((results.filter (fun r => 0 < r.total_pnl)).length : ℚ) /
        (results.length : ℚ) * 100) := by
    have hcount : ((results.map (fun r => r.total_pnl)).filter
        (fun pnl => decide (0 < pnl))).length =
        (results.filter (fun r => decide (0 < r.total_pnl))).length := by
      rw [← List.countP_eq_length_filter, ← List.countP_eq_length_filter, List.countP_map]
      rfl
    simp only [analyze_results, hlen0, if_neg hlen0, List.length_map]
    rw [hcount]
    simp
  have hruin : (analyze_results config results).probability_of_ruin =
      some (((results.filter (fun r =>
          r.final_capital < config.initial_capital * (5/10))).length : ℚ) /
        (results.length : ℚ) * 100) := by
    have hcount : ((results.map (fun r => r.final_capital)).filter
        (fun cap => decide (cap < config.initial_capital * (5/10)))).length =
        (results.filter (fun r =>
          decide (r.final_capital < config.initial_capital * (5/10)))).length := by
      rw [← List.countP_eq_length_filter, ← List.countP_eq_length_filter, List.countP_map]
      rfl
    simp only [analyze_results, hlen0, if_neg hlen0, List.length_map]
    rw [hcount]
    simp
  refine ⟨⟨hprofit, hruin⟩, ?_⟩
  intro h0 hall
  have hlenQ : ((results.length : ℕ) : ℚ) ≠ 0 := Nat.cast_ne_zero.mpr hlen0
  constructor
  · rw [hprofit]
    have hfull : results.filter (fun r => decide (0 < r.total_pnl)) = results :=
      List.filter_eq_self.mpr (fun r hr => decide_eq_true (hall r hr).1)
    rw [hfull, div_self hlenQ]
    norm_num
  · rw [hruin]
    have hnil : results.filter (fun r =>
        decide (r.final_capital < config.initial_capital * (5/10))) = [] := by
      refine List.filter_eq_nil_iff.mpr (fun r hr => ?_)
      obtain ⟨hpnl, hfc⟩ := hall r hr
      simp only [decide_eq_true_eq]
      rw [hfc]
      intro hlt
      nlinarith
    rw [hnil]
    norm_num

/-- A handcrafted profitable result record (final capital = C₀ + PnL for
C₀ = 1000). -/
def resProfit : SimulationResult :=
  ⟨1100, 100, 0, 0, 1, 0, 1, 0, 1, some 2, [1000, 1100], [0, 0]⟩

/-- C5, witness: a singleton all-profitable result set reports 100.0 / 0.0. -/
theorem C5_probabilities_witness :
    (analyze_results cfgT1 [resProfit]).probability_of_profit = some 100 ∧
    (analyze_results cfgT1 [resProfit]).probability_of_ruin = some 0 :=
  (C5_probabilities cfgT1 [resProfit] (by simp)).2 (by norm_num [cfgT1])
    (by intro r hr
        simp only [List.mem_singleton] at hr
        subst hr
        constructor <;> norm_num [resProfit, cfgT1])

/-! ## C9 — percentile monotonicity -/

/-- C9, confirmed: for every non-empty result set and every pair of ranks from
the fixed percentile set {1,5,10,25,50,75,90,95,99}, the reported percentile
values of each percentile-carrying metric (final capital, total PnL, max
drawdown %, longest loss streak) are monotonically non-decreasing in rank. -/
theorem C9_percentiles_monotone (config : SimulationConfig)
    (results : List SimulationResult) (p q : ℚ) (hne : results ≠ [])
    (hp : p ∈ percentileSet) (hq : q ∈ percentileSet) (hpq : p ≤ q) :
    (analyze_results config results).final_capital.percentiles p ≤
      (analyze_results config results).final_capital.percentiles q ∧
    (analyze_results config results).total_pnl.percentiles p ≤
      (analyze_results config results).total_pnl.percentiles q ∧
    (analyze_results config results).max_drawdown_pct.percentiles p ≤
      (analyze_results config results).max_drawdown_pct.percentiles q ∧
    (analyze_results config results).longest_loss_streak.percentiles p ≤
      (analyze_results config results).longest_loss_streak.percentiles q := by
  have hp' : 0 ≤ p ∧ p ≤ 100 := by
    simp only [percentileSet, List.mem_cons, List.not_mem_nil, or_false] at hp
    rcases hp with rfl | rfl | rfl | rfl | rfl | rfl | rfl | rfl | rfl <;> norm_num
  have hq' : 0 ≤ q ∧ q ≤ 100 := by
    simp only [percentileSet, List.mem_cons, List.not_mem_nil, or_false] at hq
    rcases hq with rfl | rfl | rfl | rfl | rfl | rfl | rfl | rfl | rfl <;> norm_num
  have hmap : ∀ f : SimulationResult → ℚ, results.map f ≠ [] :=
    fun f hf => hne (List.map_eq_nil_iff.mp hf)
  simp only [analyze_results, metricStatsOf]
  exact ⟨npPercentile_mono _ (hmap _) hp'.1 hpq hq'.2,
    npPercentile_mono _ (hmap _) hp'.1 hpq hq'.2,
    npPercentile_mono _ (hmap _) hp'.1 hpq hq'.2,
    npPercentile_mono _ (hmap _) hp'.1 hpq hq'.2⟩

/-- Two further handcrafted result records for the percentile witness. -/
def resLow : SimulationResult :=
  ⟨900, -100, 150, 15, 1, 2, 1, 2, 1/3, some (1/2), [1000, 900], [0, 10]⟩

def resHigh : SimulationResult :=
  ⟨1200, 200, 50, 5, 2, 1, 2, 1, 2/3, some 3, [1000, 1200], [0, 0]⟩

/-- C9, witness: the theorem applied to a two-element result set at ranks
5 ≤ 95. -/
theorem C9_percentiles_monotone_witness :
    (analyze_results cfgT1 [resLow, resHigh]).final_capital.percentiles 5 ≤
      (analyze_results cfgT1 [resLow, resHigh]).final_capital.percentiles 95 ∧
    (analyze_results cfgT1 [resLow, resHigh]).total_pnl.percentiles 5 ≤
      (analyze_results cfgT1 [resLow, resHigh]).total_pnl.percentiles 95 ∧
    (analyze_results cfgT1 [resLow, resHigh]).max_drawdown_pct.percentiles 5 ≤
      (analyze_results cfgT1 [resLow, resHigh]).max_drawdown_pct.percentiles 95 ∧
    (analyze_results cfgT1 [resLow, resHigh]).longest_loss_streak.percentiles 5 ≤
      (analyze_results cfgT1 [resLow, resHigh]).longest_loss_streak.percentiles 95 :=
  C9_percentiles_monotone cfgT1 [resLow, resHigh] 5 95 (by simp)
    (by norm_num [percentileSet]) (by norm_num [percentileSet]) (by norm_num)
